import Mathlib

/-!
Verification of the AURA-MF dashboard backend simulation core (`app.py`).

The simulation core consists of:
* `SimulationState` with its `update` method (the fidelity orchestrator):
  a wall-clock driven simulation clock, a period-10 fidelity cycle, and a
  bounded fidelity history;
* `generate_temperature_field`: an analytic 10×10 Celsius temperature field
  (radial hotspot + uniform noise + a time-varying component), rounded to
  2 decimals per cell;
* `calculate_energy_residuals`: a fidelity-indexed base residual scaled by
  the field's standard deviation, rounded to 8 decimals;
* `calculate_ml_confidence`: a switching-frequency confidence score over the
  recent fidelity history, clamped to [0.80, 0.99] and rounded to 3 decimals;
* the `/api/simulate` route (`simulate`), which composes the above.

Numbers are modelled with exact arithmetic: the orchestrator state over `ℚ`
and the field computations over `ℝ` (the source computes `x ** 0.5`, a real
square root).  Python's `random.uniform(-a, a)` draws and the confidence
jitter are modelled as explicit oracle parameters, constrained to the
interval the library guarantees.  Python's `round(x, n)` (round-half-to-even
at `n` decimal digits) is modelled exactly by `pyRound`.
-/

/-- Python `round` to an integer: round half to even (banker's rounding),
on an exact (rational/real) model of the float value. -/
def pyRoundInt {α : Type} [LinearOrderedField α] [FloorRing α] (y : α) : ℤ :=
  if y - (Int.floor y : α) < 1/2 then Int.floor y
  else if 1/2 < y - (Int.floor y : α) then Int.floor y + 1
  else if Int.floor y % 2 = 0 then Int.floor y else Int.floor y + 1

/-- Python `round(x, n)`: round half to even at `n` decimal digits. -/
def pyRound {α : Type} [LinearOrderedField α] [FloorRing α] (n : ℕ) (x : α) : α :=
  (pyRoundInt (x * 10 ^ n) : α) / 10 ^ n

/-- Python's `%` on floats for a positive modulus: `x - y * floor (x / y)`. -/
def fmod {α : Type} [LinearOrderedField α] [FloorRing α] (x y : α) : α :=
  x - y * (Int.floor (x / y) : α)

/-- Python `min` of a list (defined for nonempty lists; the `[]` case is
unreachable at every use site, where the list is a 10×10 grid). -/
def pyListMin (l : List ℝ) : ℝ :=
  match l with
  | [] => 0
  | x :: xs => xs.foldl min x

/-- Python `max` of a list (defined for nonempty lists). -/
def pyListMax (l : List ℝ) : ℝ :=
  match l with
  | [] => 0
  | x :: xs => xs.foldl max x

/-- Source line: `hotspot_intensity = [5.0, 3.0, 1.0][fidelity]`. -/
def hotspotTable : List ℝ := [5.0, 3.0, 1.0]

/-- Source line: `noise_level = [2.0, 1.0, 0.5][fidelity]`. -/
def noiseTable : List ℝ := [2.0, 1.0, 0.5]

/-- Source line: `base_residual = [1e-2, 1e-3, 1e-5][fidelity]`. -/
def baseResidualTable : List ℝ := [1e-2, 1e-3, 1e-5]

/-- Source line: `["Low (LF)", "Medium (MF)", "High (HF)"][current_fidelity]`. -/
def fidelityNames : List String := ["Low (LF)", "Medium (MF)", "High (HF)"]

/-- The process-wide `SimulationState` of `app.py` (class `SimulationState`). -/
structure SimulationState where
  time : ℚ
  fidelity_history : List ℕ
  temperature_base : ℚ
  last_update : ℚ

/-- `SimulationState.__init__`: `time = 0`, empty history, base 45.0 °C,
`last_update = time.time()` (the construction-time wall clock `t0`). -/
def initSimulationState (t0 : ℚ) : SimulationState :=
  { time := 0, fidelity_history := [], temperature_base := 45.0, last_update := t0 }

/-- `SimulationState.update`: advance the clock by the wall-clock delta
(`current_time` is the `time.time()` reading of this call), pick the new
fidelity from the period-10 cycle on the updated clock, append it to the
history and truncate the history to its most recent 100 entries.  The source
also computes a `current_fidelity` local from `fidelity_history[-1]`, which
is dead (never read); it is omitted here. -/
def SimulationState.update (s : SimulationState) (current_time : ℚ) :
    SimulationState × ℕ :=
  let dt := current_time - s.last_update
  let time := s.time + dt
  let new_fidelity : ℕ :=
    if fmod time 10 < 3 then 2
    else if fmod time 10 < 7 then 1
    else 0
  let h := s.fidelity_history ++ [new_fidelity]
  let h := if h.length > 100 then h.drop (h.length - 100) else h
  ({ time := time, fidelity_history := h,
     temperature_base := s.temperature_base, last_update := current_time },
   new_fidelity)

/-- Body of the doubly nested loop of `generate_temperature_field`, computing
cell `(i, j)`.  `noise i j` is the `random.uniform(-noise_level, noise_level)`
draw for this cell and `t` is the ambient `sim_state.time` read by the loop. -/
noncomputable def tempCell (grid_size : ℕ) (base_temp : ℝ) (fidelity : ℕ)
    (noise : ℕ → ℕ → ℝ) (t : ℝ) (i j : ℕ) : ℝ :=
  let hotspot_intensity := hotspotTable.getD fidelity 0
  let center_x : ℝ := (grid_size : ℝ) / 2
  let center_y : ℝ := (grid_size : ℝ) / 2
  let dist_from_center :=
    Real.sqrt (((i : ℝ) - center_x) ^ 2 + ((j : ℝ) - center_y) ^ 2)
  let radial_temp :=
    base_temp + hotspot_intensity * (1 - dist_from_center / ((grid_size : ℝ) / 2))
  let time_variation := 2.0 * |0.5 - fmod t 20 / 20|
  pyRound 2 (radial_temp + noise i j + time_variation)

/-- `generate_temperature_field(grid_size, base_temp, fidelity)`: the analytic
temperature field, one `tempCell` per `(i, j)` of the `grid_size × grid_size`
grid. -/
noncomputable def generate_temperature_field (grid_size : ℕ) (base_temp : ℝ)
    (fidelity : ℕ) (noise : ℕ → ℕ → ℝ) (t : ℝ) : List (List ℝ) :=
  (List.range grid_size).map fun i =>
    (List.range grid_size).map fun j =>
      tempCell grid_size base_temp fidelity noise t i j

/-- Local `avg_temp` of `calculate_energy_residuals`: `sum(temps)/len(temps)`. -/
noncomputable def avg_temp (temps : List ℝ) : ℝ := temps.sum / temps.length

/-- Local `std_temp` of `calculate_energy_residuals`:
`(sum((t - avg)**2 for t in temps) / len(temps)) ** 0.5`. -/
noncomputable def std_temp (temps : List ℝ) : ℝ :=
  Real.sqrt ((temps.map fun x => (x - avg_temp temps) ^ 2).sum / temps.length)

/-- `calculate_energy_residuals(fidelity, temperature_field)`. -/
noncomputable def calculate_energy_residuals (fidelity : ℕ)
    (temperature_field : List (List ℝ)) : ℝ :=
  let temps := temperature_field.flatten
  let base_residual := baseResidualTable.getD fidelity 0
  pyRound 8 (base_residual * (1 + std_temp temps / 100))

/-- Number of adjacent differing pairs of a list, as in the source line
`switches = sum(1 for i in range(len(recent)-1) if recent[i] != recent[i+1])`. -/
def switchCount (l : List ℕ) : ℕ :=
  (l.zip l.tail).countP fun p => p.1 != p.2

/-- Clamp of the confidence value, source line `max(0.80, min(0.99, confidence))`. -/
def confClamp (x : ℚ) : ℚ := max 0.80 (min 0.99 x)

/-- `calculate_ml_confidence(fidelity_history)`.  `jitter` is the
`random.uniform(-0.02, 0.02)` draw. -/
def calculate_ml_confidence (fidelity_history : List ℕ) (jitter : ℚ) : ℚ :=
  if fidelity_history.length < 5 then 0.85
  else
    let recent := fidelity_history.drop (fidelity_history.length - 10)
    let switches := switchCount recent
    let confidence : ℚ := 0.95 - (switches : ℚ) * 0.02
    let confidence := confidence + jitter
    pyRound 3 (confClamp confidence)

/-- Caller-supplied parameters of a `/api/simulate` request.  The route reads
none of them (the handler never touches `request`); they are carried here so
that independence from them is expressible. -/
structure SimRequest where
  solar : Option ℚ
  wind : Option ℚ
  ambient : Option ℚ

/-- The JSON payload assembled by the `/api/simulate` route (response fields
plus the `metadata` sub-object, flattened). -/
structure SimResponse where
  temperature_field : List (List ℝ)
  fidelity_level : ℕ
  fidelity_name : String
  energy_residuals : ℝ
  ml_confidence : ℚ
  timestamp : ℚ
  grid_size : String
  base_temperature : ℚ
  min_temp : ℝ
  max_temp : ℝ
  avg_temp : ℝ
  total_fidelity_switches : ℕ

/-- The `/api/simulate` handler: update the global state, generate the field
at the new fidelity, compute residuals and confidence, assemble the response.
`current_time` is this request's `time.time()` reading; `noise` and `jitter`
are the random draws of this request. -/
noncomputable def simulate (req : SimRequest) (s : SimulationState)
    (current_time : ℚ) (noise : ℕ → ℕ → ℝ) (jitter : ℚ) :
    SimulationState × SimResponse :=
  let res := s.update current_time
  let s' := res.1
  let current_fidelity := res.2
  let temp_field :=
    generate_temperature_field 10 (s'.temperature_base : ℝ) current_fidelity
      noise (s'.time : ℝ)
  let residuals := calculate_energy_residuals current_fidelity temp_field
  let confidence := calculate_ml_confidence s'.fidelity_history jitter
  (s',
   { temperature_field := temp_field
     fidelity_level := current_fidelity
     fidelity_name := fidelityNames.getD current_fidelity ""
     energy_residuals := residuals
     ml_confidence := confidence
     timestamp := pyRound 2 s'.time
     grid_size := "10×10"
     base_temperature := s'.temperature_base
     min_temp := pyRound 2 (pyListMin (temp_field.map pyListMin))
     max_temp := pyRound 2 (pyListMax (temp_field.map pyListMax))
     avg_temp := pyRound 2 ((temp_field.map List.sum).sum / 100)
     total_fidelity_switches := s'.fidelity_history.length })

/-- Modelled from the spec: the clamp of §4.2 step 6, `[250, 400]` K. -/
def specClamp (x : ℝ) : ℝ := max 250 (min 400 x)

/-- Modelled from the spec: the sub-step lookup table `{Low→5, Medium→20, High→100}`. -/
def specSubstepTable : List ℕ := [5, 20, 100]

/-- Modelled from the spec: edge-replicated (clamped-index) cell access used
by the 5-point Laplacian stencil of §4.2 step 3. -/
noncomputable def specGridGet (T : List (List ℝ)) (i j : ℤ) : ℝ :=
  let rows : ℤ := T.length
  let cols : ℤ := (T.getD 0 []).length
  let i' := (max 0 (min i (rows - 1))).toNat
  let j' := (max 0 (min j (cols - 1))).toNat
  (T.getD i' []).getD j' 0

/-- Modelled from the spec: one explicit forward-Euler sub-step of §4.2
(steps 1-5): convective loss with `h_conv = 10 + 5 * wind`, radiative loss
with emissivity `0.9` and `SIGMA = 5.67e-8` against `(ambient - 10)`,
5-point-stencil Laplacian over `dx = 0.1` scaled by `alpha = 1.3e-4`,
absorbed solar `0.8 * solar`, and the update `T += q_net * dt * 0.001`
with `dt = 0.1`. -/
noncomputable def specEulerStep (solar wind ambient : ℝ) (T : List (List ℝ)) :
    List (List ℝ) :=
  (List.range T.length).map fun i =>
    (List.range (T.getD i []).length).map fun j =>
      let Tij := specGridGet T i j
      let q_conv := (10 + 5 * wind) * (Tij - ambient)
      let q_rad := 0.9 * 5.67e-8 * (Tij ^ 4 - (ambient - 10) ^ 4)
      let laplacian :=
        (specGridGet T (i - 1) j + specGridGet T (i + 1) j +
         specGridGet T i (j - 1) + specGridGet T i (j + 1) - 4 * Tij) / 0.1 ^ 2
      let q_net := 0.8 * solar - q_conv - q_rad + 1.3e-4 * laplacian
      Tij + q_net * 0.1 * 0.001

/-- Modelled from the spec: the ThermalSolver `solve()` of §4.2 — the
fidelity-determined number of Euler sub-steps from the initial grid `T0`,
followed by the final clamp of every cell to `[250, 400]` K (step 6). -/
noncomputable def specThermalSolve (T0 : List (List ℝ)) (solar wind ambient : ℝ)
    (fidelity : ℕ) : List (List ℝ) :=
  ((specEulerStep solar wind ambient)^[specSubstepTable.getD fidelity 0] T0).map
    (List.map specClamp)

/-- Fidelity level that claim C2 predicts for the tick at (integer) time `t`:
Low (0) where `(t // 10) % 3 == 0`, Medium (1) where `== 1`, High (2) where
`== 2`. -/
def c2ClaimedFidelity (t : ℕ) : ℕ := t / 10 % 3

/-- Trajectory of the global state under the scenario of claim C2: the state
is constructed at wall-clock 0 (so the simulation clock starts at 0) and the
`n`-th request arrives at wall-clock `n`, so the clock advances by exactly
1.0 per tick. -/
def tickState : ℕ → SimulationState
  | 0 => initSimulationState 0
  | n + 1 => ((tickState n).update ((n + 1 : ℕ) : ℚ)).1

/-- Fidelity returned by tick `n + 1` in the scenario of claim C2. -/
def tickFid (n : ℕ) : ℕ := ((tickState n).update ((n + 1 : ℕ) : ℚ)).2

/-- Unfolding lemma: the fidelity returned by `SimulationState.update`. -/
theorem update_snd (s : SimulationState) (ct : ℚ) :
    (s.update ct).2 =
      (if fmod (s.time + (ct - s.last_update)) 10 < 3 then 2
       else if fmod (s.time + (ct - s.last_update)) 10 < 7 then 1 else 0) := rfl

theorem pyRoundInt_le {α : Type} [LinearOrderedField α] [FloorRing α] {y : α}
    {m : ℤ} (h : y ≤ (m : α)) : pyRoundInt y ≤ m := by
  have hf : Int.floor y ≤ m := by
    have h2 := Int.floor_mono h
    rwa [Int.floor_intCast] at h2
  unfold pyRoundInt
  split_ifs with h1 h2 h3
  · exact hf
  · have hne : Int.floor y ≠ m := by
      intro he
      rw [he] at h2
      have := Int.floor_le y
      rw [he] at this
      linarith
    omega
  · exact hf
  · have hne : Int.floor y ≠ m := by
      intro he
      push_neg at h1
      rw [he] at h1
      linarith
    omega

theorem le_pyRoundInt {α : Type} [LinearOrderedField α] [FloorRing α] {y : α}
    {m : ℤ} (h : (m : α) ≤ y) : m ≤ pyRoundInt y := by
  have hf : m ≤ Int.floor y := Int.le_floor.mpr h
  unfold pyRoundInt
  split_ifs <;> omega

theorem abs_pyRoundInt_sub_le {α : Type} [LinearOrderedField α] [FloorRing α]
    (y : α) : |(pyRoundInt y : α) - y| ≤ 1 / 2 := by
  have h1 : (Int.floor y : α) ≤ y := Int.floor_le y
  have h2 : y < Int.floor y + 1 := Int.lt_floor_add_one y
  unfold pyRoundInt
  split_ifs with ha hb hc <;> rw [abs_le] <;> push_cast <;> constructor <;> linarith

theorem abs_pyRound_sub_le {α : Type} [LinearOrderedField α] [FloorRing α]
    (n : ℕ) (x : α) : |pyRound n x - x| ≤ 1 / (2 * 10 ^ n) := by
  have h10 : (0 : α) < 10 ^ n := by positivity
  have hkey : pyRound n x - x = ((pyRoundInt (x * 10 ^ n) : α) - x * 10 ^ n) / 10 ^ n := by
    unfold pyRound
    field_simp
    ring
  rw [hkey, abs_div, abs_of_pos h10, div_le_iff h10]
  calc |(pyRoundInt (x * 10 ^ n) : α) - x * 10 ^ n| ≤ 1 / 2 :=
        abs_pyRoundInt_sub_le _
    _ = 1 / (2 * 10 ^ n) * 10 ^ n := by field_simp

theorem pyRound_le {α : Type} [LinearOrderedField α] [FloorRing α] {n : ℕ}
    {x : α} {m : ℤ} (h : x ≤ (m : α) / 10 ^ n) : pyRound n x ≤ (m : α) / 10 ^ n := by
  have h10 : (0 : α) < 10 ^ n := by positivity
  have hx : x * 10 ^ n ≤ (m : α) := by
    rw [← le_div_iff h10]
    exact h
  have h2 := pyRoundInt_le hx
  unfold pyRound
  exact (div_le_div_right h10).mpr (by exact_mod_cast h2)

theorem le_pyRound {α : Type} [LinearOrderedField α] [FloorRing α] {n : ℕ}
    {x : α} {m : ℤ} (h : (m : α) / 10 ^ n ≤ x) : (m : α) / 10 ^ n ≤ pyRound n x := by
  have h10 : (0 : α) < 10 ^ n := by positivity
  have hx : (m : α) ≤ x * 10 ^ n := (div_le_iff h10).mp h
  have h2 := le_pyRoundInt hx
  unfold pyRound
  exact (div_le_div_right h10).mpr (by exact_mod_cast h2)

theorem fmod_nonneg {α : Type} [LinearOrderedField α] [FloorRing α] (x : α)
    {y : α} (hy : 0 < y) : 0 ≤ fmod x y := by
  unfold fmod
  have h1 : (Int.floor (x / y) : α) ≤ x / y := Int.floor_le _
  have h2 := mul_le_mul_of_nonneg_left h1 hy.le
  have h3 : y * (x / y) = x := by field_simp
  linarith

theorem fmod_lt {α : Type} [LinearOrderedField α] [FloorRing α] (x : α) {y : α}
    (hy : 0 < y) : fmod x y < y := by
  unfold fmod
  have h1 : x / y < Int.floor (x / y) + 1 := Int.lt_floor_add_one _
  have h2 := mul_lt_mul_of_pos_left h1 hy
  rw [mul_add, mul_one] at h2
  have h3 : y * (x / y) = x := by field_simp
  linarith

theorem fmod_natCast_ten (m : ℕ) : fmod ((m : ℚ)) 10 = ((m % 10 : ℕ) : ℚ) := by
  obtain ⟨q, r, hr, rfl⟩ : ∃ q r, r < 10 ∧ m = 10 * q + r :=
    ⟨m / 10, m % 10, Nat.mod_lt _ (by norm_num), (Nat.div_add_mod m 10).symm⟩
  have hfloor : Int.floor (((10 * q + r : ℕ) : ℚ) / 10) = (q : ℤ) := by
    have he : ((10 * q + r : ℕ) : ℚ) / 10 = (r : ℚ) / 10 + ((q : ℤ) : ℚ) := by
      push_cast
      ring
    rw [he, Int.floor_add_int]
    have h0 : Int.floor ((r : ℚ) / 10) = 0 := by
      rw [Int.floor_eq_zero_iff]
      constructor
      · positivity
      · rw [div_lt_one (by norm_num)]
        exact_mod_cast hr
    omega
  unfold fmod
  rw [hfloor]
  have hmod : (10 * q + r) % 10 = r := by omega
  rw [hmod]
  push_cast
  ring

theorem confClamp_dist (u v : ℚ) : |confClamp u - confClamp v| ≤ |u - v| := by
  have h1 : u - v ≤ |u - v| := le_abs_self _
  have h2 : -|u - v| ≤ u - v := neg_abs_le _
  simp only [confClamp, max_def, min_def]
  split_ifs <;> rw [abs_le] <;> constructor <;> linarith

theorem pyRound3_abs_le {y a : ℚ} (m : ℤ) (hm : a = (m : ℚ) / 10 ^ 3)
    (hd : |y - a| ≤ 0.02) : |pyRound 3 y - a| ≤ 0.02 := by
  obtain ⟨hd1, hd2⟩ := abs_le.mp hd
  rw [hm] at hd1 hd2
  have hlow : ((m - 20 : ℤ) : ℚ) / 10 ^ 3 ≤ y := by
    push_cast
    linarith
  have hup : y ≤ ((m + 20 : ℤ) : ℚ) / 10 ^ 3 := by
    push_cast
    linarith
  have h1 := le_pyRound hlow
  have h2 := pyRound_le hup
  push_cast at h1 h2
  rw [abs_le, hm]
  constructor <;> linarith

/-- C3: for every fidelity history and every jitter draw within the library's
`uniform(-0.02, 0.02)` range, `calculate_ml_confidence` returns a value in
`[0.80, 0.99]`; for histories with fewer than 5 entries it returns exactly
`0.85`; for histories with at least 5 entries its result is within `±0.02`
(the jitter tolerance) of the clamped base score
`clamp (0.95 - 0.02 * switches)` computed over the last 10 entries. -/
theorem c3_confidence (h : List ℕ) (j : ℚ) :
    (0.80 ≤ calculate_ml_confidence h j ∧ calculate_ml_confidence h j ≤ 0.99) ∧
    (h.length < 5 → calculate_ml_confidence h j = 0.85) ∧
    (|j| ≤ 0.02 → 5 ≤ h.length →
      |calculate_ml_confidence h j -
        confClamp (0.95 - (switchCount (h.drop (h.length - 10)) : ℚ) * 0.02)| ≤ 0.02) := by
  by_cases hlen : h.length < 5
  · have hc : calculate_ml_confidence h j = 0.85 := by
      simp [calculate_ml_confidence, hlen]
    refine ⟨⟨?_, ?_⟩, fun _ => hc, fun _ hge => absurd hge (by omega)⟩ <;>
      rw [hc] <;> norm_num
  · have hc : calculate_ml_confidence h j =
        pyRound 3 (confClamp (0.95 - (switchCount (h.drop (h.length - 10)) : ℚ) * 0.02 + j)) := by
      simp [calculate_ml_confidence, hlen]
    set s : ℕ := switchCount (h.drop (h.length - 10)) with hs
    set x : ℚ := 0.95 - (s : ℚ) * 0.02 with hx
    set y : ℚ := confClamp (x + j) with hy
    have hy1 : (0.80 : ℚ) ≤ y := by
      rw [hy, confClamp]
      exact le_max_left _ _
    have hy2 : y ≤ 0.99 := by
      rw [hy, confClamp]
      exact max_le (by norm_num) (min_le_left _ _)
    have hrange1 : (0.80 : ℚ) ≤ pyRound 3 y := by
      have h8 : ((800 : ℤ) : ℚ) / 10 ^ 3 = 0.80 := by norm_num
      have hle := le_pyRound (m := 800) (n := 3) (x := y) (by rw [h8]; exact hy1)
      rwa [h8] at hle
    have hrange2 : pyRound 3 y ≤ 0.99 := by
      have h9 : ((990 : ℤ) : ℚ) / 10 ^ 3 = 0.99 := by norm_num
      have hle := pyRound_le (m := 990) (n := 3) (x := y) (by rw [h9]; exact hy2)
      rwa [h9] at hle
    refine ⟨⟨by rw [hc]; exact hrange1, by rw [hc]; exact hrange2⟩,
      fun hlt => absurd hlt hlen, ?_⟩
    intro hj _
    set a : ℚ := confClamp x with ha
    have hdist : |y - a| ≤ 0.02 := by
      calc |y - a| = |confClamp (x + j) - confClamp x| := by rw [hy, ha]
        _ ≤ |x + j - x| := confClamp_dist _ _
        _ = |j| := by ring_nf
        _ ≤ 0.02 := hj
    have hxle : x ≤ 0.99 := by
      have hs0 : (0 : ℚ) ≤ (s : ℚ) := by positivity
      have := mul_nonneg hs0 (by norm_num : (0 : ℚ) ≤ 0.02)
      rw [hx]
      linarith
    have hamax : a = max 0.80 x := by
      rw [ha, confClamp, min_eq_right hxle]
    rw [hc]
    rcases le_total x 0.80 with hcase | hcase
    · have ha8 : a = ((800 : ℤ) : ℚ) / 10 ^ 3 := by
        rw [hamax, max_eq_left hcase]
        norm_num
      exact pyRound3_abs_le 800 ha8 hdist
    · have ham : a = ((950 - 20 * (s : ℤ) : ℤ) : ℚ) / 10 ^ 3 := by
        rw [hamax, max_eq_right hcase, hx]
        push_cast
        ring
      exact pyRound3_abs_le _ ham hdist

/-- C3 witness: the empty history with zero jitter gives exactly 0.85. -/
theorem c3_confidence_witness : calculate_ml_confidence [] 0 = 0.85 :=
  (c3_confidence [] 0).2.1 (by simp)

/-- C6: every `update` leaves at most 100 history entries; the new history is
`old ++ [new_fidelity]` truncated only from the front (a drop), it equals the
plain append whenever the bound is not yet exceeded, and its last entry is
the fidelity just produced. -/
theorem c6_history_bound (s : SimulationState) (ct : ℚ) :
    ((s.update ct).1.fidelity_history.length ≤ 100) ∧
    ((s.update ct).1.fidelity_history.length = min (s.fidelity_history.length + 1) 100) ∧
    (∃ k, (s.update ct).1.fidelity_history =
      (s.fidelity_history ++ [(s.update ct).2]).drop k) ∧
    (s.fidelity_history.length < 100 →
      (s.update ct).1.fidelity_history = s.fidelity_history ++ [(s.update ct).2]) ∧
    ((s.update ct).1.fidelity_history.getLast? = some (s.update ct).2) := by
  have hfst : (s.update ct).1.fidelity_history =
      (if (s.fidelity_history ++ [(s.update ct).2]).length > 100
       then (s.fidelity_history ++ [(s.update ct).2]).drop
         ((s.fidelity_history ++ [(s.update ct).2]).length - 100)
       else s.fidelity_history ++ [(s.update ct).2]) := rfl
  set L := s.fidelity_history with hL
  set f := (s.update ct).2 with hf
  have hlen : (L ++ [f]).length = L.length + 1 := by simp
  rw [hfst]
  by_cases hb : (L ++ [f]).length > 100
  · rw [if_pos hb]
    rw [hlen] at hb
    refine ⟨?_, ?_, ⟨(L ++ [f]).length - 100, rfl⟩, ?_, ?_⟩
    · rw [List.length_drop, hlen]
      omega
    · rw [List.length_drop, hlen]
      omega
    · intro hlt
      omega
    · rw [hlen, List.drop_append_of_le_length (by omega)]
      exact List.getLast?_concat _
  · rw [if_neg hb]
    rw [hlen] at hb
    push_neg at hb
    refine ⟨by rw [hlen]; omega, by rw [hlen]; omega,
      ⟨0, (List.drop_zero _).symm⟩, fun _ => rfl, List.getLast?_concat _⟩

/-- C7: a single `update` never decreases the simulation clock, provided the
wall-clock reading of the call is not earlier than the reading stored by the
previous call (`time.time()` monotonicity, the environment assumption under
which the program runs). -/
theorem c7_clock_monotone (s : SimulationState) (ct : ℚ)
    (hwall : s.last_update ≤ ct) : s.time ≤ (s.update ct).1.time := by
  have hred : (s.update ct).1.time = s.time + (ct - s.last_update) := rfl
  rw [hred]
  linarith

/-- C7 witness: from the freshly constructed state with a later wall reading. -/
theorem c7_clock_monotone_witness :
    (initSimulationState 0).time ≤ ((initSimulationState 0).update 1).1.time :=
  c7_clock_monotone _ _ (by norm_num [initSimulationState])

/-- C8: the fidelity produced by `update` is always one of 0, 1, 2, hence in
range for all four fidelity-indexed parallel tables, and the response's
`fidelity_name` is exactly the table entry at `fidelity_level`. -/
theorem c8_fidelity_range (s : SimulationState) (ct : ℚ) (req : SimRequest)
    (noise : ℕ → ℕ → ℝ) (jitter : ℚ) :
    ((s.update ct).2 = 0 ∨ (s.update ct).2 = 1 ∨ (s.update ct).2 = 2) ∧
    (s.update ct).2 < fidelityNames.length ∧
    (s.update ct).2 < hotspotTable.length ∧
    (s.update ct).2 < noiseTable.length ∧
    (s.update ct).2 < baseResidualTable.length ∧
    (simulate req s ct noise jitter).2.fidelity_level = (s.update ct).2 ∧
    (simulate req s ct noise jitter).2.fidelity_name =
      (if (s.update ct).2 = 0 then "Low (LF)"
       else if (s.update ct).2 = 1 then "Medium (MF)" else "High (HF)") := by
  have htri : (s.update ct).2 = 2 ∨ (s.update ct).2 = 1 ∨ (s.update ct).2 = 0 := by
    rw [update_snd]
    split_ifs <;> simp
  have hlvl : (simulate req s ct noise jitter).2.fidelity_level = (s.update ct).2 := rfl
  have hname : (simulate req s ct noise jitter).2.fidelity_name =
      fidelityNames.getD (s.update ct).2 "" := rfl
  rcases htri with h | h | h <;>
    simp [h, hlvl, hname, fidelityNames, hotspotTable, noiseTable, baseResidualTable]

/-- C10: the `/api/simulate` response is independent of every caller-supplied
request parameter (solar, wind, ambient): from identical state, wall-clock
reading and random draws, any two requests get the identical response. -/
theorem c10_request_independence (r1 r2 : SimRequest) (s : SimulationState)
    (ct : ℚ) (noise : ℕ → ℕ → ℝ) (jitter : ℚ) :
    simulate r1 s ct noise jitter = simulate r2 s ct noise jitter := rfl

theorem tickState_clock (n : ℕ) :
    (tickState n).time = (n : ℚ) ∧ (tickState n).last_update = (n : ℚ) := by
  induction n with
  | zero => exact ⟨by simp [tickState, initSimulationState], by simp [tickState, initSimulationState]⟩
  | succ k ih =>
    obtain ⟨h1, h2⟩ := ih
    have hred : tickState (k + 1) = ((tickState k).update ((k + 1 : ℕ) : ℚ)).1 := rfl
    constructor
    · rw [hred]
      have hst : ((tickState k).update ((k + 1 : ℕ) : ℚ)).1.time =
          (tickState k).time + (((k + 1 : ℕ) : ℚ) - (tickState k).last_update) := rfl
      rw [hst, h1, h2]
      push_cast
      ring
    · rw [hred]
      rfl

/-- C2 (amended): under the claim's scenario (clock constructed at 0 and
advanced by exactly 1.0 per tick), the fidelity of each tick is derived from
the updated clock by the period-10 cycle of the source: High (2) while
`time % 10 < 3`, Medium (1) while `3 ≤ time % 10 < 7`, Low (0) while
`7 ≤ time % 10 < 10`. -/
theorem c2_cycle (n : ℕ) :
    tickFid n = (if (n + 1) % 10 < 3 then 2 else if (n + 1) % 10 < 7 then 1 else 0) := by
  obtain ⟨h1, h2⟩ := tickState_clock n
  have hfid : tickFid n =
      (if fmod ((tickState n).time + (((n + 1 : ℕ) : ℚ) - (tickState n).last_update)) 10 < 3
       then 2
       else if fmod ((tickState n).time + (((n + 1 : ℕ) : ℚ) - (tickState n).last_update)) 10 < 7
       then 1 else 0) := rfl
  rw [hfid, h1, h2]
  have ht : (n : ℚ) + (((n + 1 : ℕ) : ℚ) - (n : ℚ)) = ((n + 1 : ℕ) : ℚ) := by
    push_cast
    ring
  rw [ht, fmod_natCast_ten]
  rcases Nat.lt_or_ge ((n + 1) % 10) 3 with ha | ha
  · rw [if_pos (by exact_mod_cast ha), if_pos ha]
  · rw [if_neg (by exact_mod_cast not_lt.mpr ha), if_neg (not_lt.mpr ha)]
    rcases Nat.lt_or_ge ((n + 1) % 10) 7 with hb | hb
    · rw [if_pos (by exact_mod_cast hb), if_pos hb]
    · rw [if_neg (by exact_mod_cast not_lt.mpr hb), if_neg (not_lt.mpr hb)]

/-- C2 counterexample: at the very first tick (updated clock 1.0) the code
returns High (2), while the claim's mapping `(time // 10) % 3` predicts
Low (0): the claimed Low/Medium/High ordering of the cycle is wrong. -/
theorem c2_counterexample : tickFid 0 = 2 ∧ c2ClaimedFidelity 1 = 0 := by
  constructor
  · norm_num [tickFid, tickState, initSimulationState, update_snd, fmod]
  · rfl

theorem generate_row_mem {g : ℕ} (base : ℝ) (fid : ℕ) (ν : ℕ → ℕ → ℝ) (t : ℝ)
    {i : ℕ} (hi : i < g) :
    ((List.range g).map fun j => tempCell g base fid ν t i j) ∈
      generate_temperature_field g base fid ν t := by
  unfold generate_temperature_field
  exact List.mem_map_of_mem _ (List.mem_range.mpr hi)

theorem generate_cell_mem {g : ℕ} (base : ℝ) (fid : ℕ) (ν : ℕ → ℕ → ℝ) (t : ℝ)
    (i : ℕ) {j : ℕ} (hj : j < g) :
    tempCell g base fid ν t i j ∈
      ((List.range g).map fun j => tempCell g base fid ν t i j) :=
  List.mem_map_of_mem _ (List.mem_range.mpr hj)

theorem mem_generate {g : ℕ} {base : ℝ} {fid : ℕ} {ν : ℕ → ℕ → ℝ} {t : ℝ}
    {row : List ℝ} (hrow : row ∈ generate_temperature_field g base fid ν t)
    {x : ℝ} (hx : x ∈ row) :
    ∃ i j, i < g ∧ j < g ∧ x = tempCell g base fid ν t i j := by
  unfold generate_temperature_field at hrow
  rcases List.mem_map.mp hrow with ⟨i, hi, rfl⟩
  rcases List.mem_map.mp hx with ⟨j, hj, rfl⟩
  exact ⟨i, j, List.mem_range.mp hi, List.mem_range.mp hj, rfl⟩

theorem pyRound2_bounds {lo hi v : ℝ} (h1 : lo + 1 / 200 ≤ v) (h2 : v ≤ hi - 1 / 200) :
    lo ≤ pyRound 2 v ∧ pyRound 2 v ≤ hi := by
  have h := abs_pyRound_sub_le (α := ℝ) 2 v
  rw [abs_le] at h
  have e : (1 : ℝ) / (2 * 10 ^ 2) = 1 / 200 := by norm_num
  rw [e] at h
  exact ⟨by linarith [h.1], by linarith [h.2]⟩

set_option maxHeartbeats 1000000 in
theorem tempCell_bounds {base : ℝ} {fid : ℕ} {ν : ℕ → ℕ → ℝ} {t : ℝ} {i j : ℕ}
    (hfid : fid < 3) (hν : |ν i j| ≤ noiseTable.getD fid 0)
    (hi : i < 10) (hj : j < 10) :
    base - 10 ≤ tempCell 10 base fid ν t i j ∧ tempCell 10 base fid ν t i j ≤ base + 10 := by
  have hi9 : ((i : ℕ) : ℝ) ≤ 9 := by exact_mod_cast Nat.lt_succ_iff.mp hi
  have hi0 : (0 : ℝ) ≤ ((i : ℕ) : ℝ) := Nat.cast_nonneg i
  have hj9 : ((j : ℕ) : ℝ) ≤ 9 := by exact_mod_cast Nat.lt_succ_iff.mp hj
  have hj0 : (0 : ℝ) ≤ ((j : ℕ) : ℝ) := Nat.cast_nonneg j
  have hd0 : 0 ≤ Real.sqrt (((i : ℝ) - 5) ^ 2 + ((j : ℝ) - 5) ^ 2) :=
    Real.sqrt_nonneg _
  have hdle : Real.sqrt (((i : ℝ) - 5) ^ 2 + ((j : ℝ) - 5) ^ 2) ≤ 7.1 := by
    have harg : ((i : ℝ) - 5) ^ 2 + ((j : ℝ) - 5) ^ 2 ≤ 50 := by nlinarith
    have h1 : Real.sqrt (((i : ℝ) - 5) ^ 2 + ((j : ℝ) - 5) ^ 2) ≤ Real.sqrt 50 :=
      Real.sqrt_le_sqrt harg
    have hs := Real.sq_sqrt (show (0 : ℝ) ≤ 50 by norm_num)
    nlinarith [Real.sqrt_nonneg 50, sq_nonneg (Real.sqrt 50 - 7.1)]
  have hm0 : 0 ≤ fmod t 20 := fmod_nonneg t (by norm_num)
  have hm1 : fmod t 20 < 20 := fmod_lt t (by norm_num)
  have htv0 : (0 : ℝ) ≤ 2.0 * |0.5 - fmod t 20 / 20| := by positivity
  have htv1 : 2.0 * |0.5 - fmod t 20 / 20| ≤ 1 := by
    have hdiv0 : (0 : ℝ) ≤ fmod t 20 / 20 := by positivity
    have hdiv1 : fmod t 20 / 20 < 1 := by
      rw [div_lt_one (by norm_num : (0 : ℝ) < 20)]
      exact hm1
    have habs : |(0.5 : ℝ) - fmod t 20 / 20| ≤ 0.5 :=
      abs_le.mpr ⟨by linarith, by linarith⟩
    linarith
  obtain ⟨hν1, hν2⟩ := abs_le.mp hν
  simp only [tempCell]
  rw [show ((10 : ℕ) : ℝ) / 2 = 5 by norm_num]
  rcases (by omega : fid = 0 ∨ fid = 1 ∨ fid = 2) with rfl | rfl | rfl <;>
    simp only [noiseTable, hotspotTable, List.getD_cons_zero, List.getD_cons_succ] at hν1 hν2 ⊢ <;>
    refine pyRound2_bounds ?_ ?_ <;>
    linarith [hd0, hdle, htv0, htv1, hν1, hν2]

theorem tempCell_center (base : ℝ) (fid : ℕ) (ν : ℕ → ℕ → ℝ) (t : ℝ) :
    tempCell 10 base fid ν t 5 5 =
      pyRound 2 (base + hotspotTable.getD fid 0 + ν 5 5 + 2.0 * |0.5 - fmod t 20 / 20|) := by
  simp only [tempCell]
  congr 1
  push_cast
  rw [show (5 : ℝ) - 10 / 2 = 0 by norm_num]
  norm_num [Real.sqrt_zero]

/-- C1 counterexample: the field returned by `/api/simulate` (first request,
wall-clock reading 1, all noise draws 0) contains the cell value 46.9 °C,
which lies outside `[250, 400]`: no Kelvin clamp is applied anywhere. -/
theorem c1_counterexample :
    ¬ (∀ row ∈ (simulate ⟨none, none, none⟩ (initSimulationState 0) 1
          (fun _ _ => 0) 0).2.temperature_field,
        ∀ x ∈ row, (250 : ℝ) ≤ x ∧ x ≤ 400) := by
  intro hall
  have hfid : ((initSimulationState 0).update 1).2 = 2 := by
    norm_num [initSimulationState, update_snd, fmod]
  have htime : ((initSimulationState 0).update 1).1.time = 1 := by
    have hred : ((initSimulationState 0).update 1).1.time =
        (initSimulationState 0).time + (1 - (initSimulationState 0).last_update) := rfl
    rw [hred]
    norm_num [initSimulationState]
  have hbase : ((initSimulationState 0).update 1).1.temperature_base = 45 := by
    have hred : ((initSimulationState 0).update 1).1.temperature_base =
        (initSimulationState 0).temperature_base := rfl
    rw [hred]
    norm_num [initSimulationState]
  have hfield : (simulate ⟨none, none, none⟩ (initSimulationState 0) 1
      (fun _ _ => 0) 0).2.temperature_field =
      generate_temperature_field 10 45 2 (fun _ _ => 0) 1 := by
    have hred : (simulate ⟨none, none, none⟩ (initSimulationState 0) 1
        (fun _ _ => 0) 0).2.temperature_field =
        generate_temperature_field 10
          ((((initSimulationState 0).update 1).1.temperature_base : ℝ))
          (((initSimulationState 0).update 1).2) (fun _ _ => 0)
          ((((initSimulationState 0).update 1).1.time : ℝ)) := rfl
    rw [hred, hfid, htime, hbase]
    norm_num
  rw [hfield] at hall
  have hb := hall _ (generate_row_mem 45 2 (fun _ _ => 0) 1 (show 5 < 10 by norm_num)) _
    (generate_cell_mem 45 2 (fun _ _ => 0) 1 5 (show 5 < 10 by norm_num))
  have hval : tempCell 10 45 2 (fun _ _ => 0) 1 5 5 = 46.9 := by
    rw [tempCell_center]
    have hf1 : fmod (1 : ℝ) 20 = 1 := by norm_num [fmod]
    rw [hf1]
    rw [show |(0.5 : ℝ) - 1 / 20| = 0.45 from by rw [abs_of_pos] <;> norm_num]
    norm_num [hotspotTable]
    norm_num [pyRound, pyRoundInt]
  rw [hval] at hb
  norm_num at hb

/-- C1 (amended): no `[250, 400]` K clamp exists in the code.  Instead the
analytic field stays near its Celsius base temperature: for any base, any
fidelity in range and any noise draws within the per-fidelity noise bound,
every produced cell lies in `[base_temp - 10, base_temp + 10]`. -/
theorem c1_cells_near_base (base : ℝ) (fid : ℕ) (noise : ℕ → ℕ → ℝ) (t : ℝ)
    (hfid : fid < 3) (hnoise : ∀ i j, |noise i j| ≤ noiseTable.getD fid 0) :
    ∀ row ∈ generate_temperature_field 10 base fid noise t, ∀ x ∈ row,
      base - 10 ≤ x ∧ x ≤ base + 10 := by
  intro row hrow x hx
  obtain ⟨i, j, hi, hj, rfl⟩ := mem_generate hrow hx
  exact tempCell_bounds hfid (hnoise i j) hi hj

/-- C1 amended witness: at base 100 °C, fidelity 0, zero noise, the centre
cell of the generated field lies in `[90, 110]`. -/
theorem c1_cells_near_base_witness :
    (100 : ℝ) - 10 ≤ tempCell 10 100 0 (fun _ _ => 0) 0 5 5 ∧
      tempCell 10 100 0 (fun _ _ => 0) 0 5 5 ≤ (100 : ℝ) + 10 :=
  c1_cells_near_base 100 0 (fun _ _ => 0) 0 (by norm_num)
    (fun i j => by norm_num [noiseTable])
    _ (generate_row_mem 100 0 (fun _ _ => 0) 0 (show 5 < 10 by norm_num))
    _ (generate_cell_mem 100 0 (fun _ _ => 0) 0 5 (show 5 < 10 by norm_num))

/-- C9: with the default grid size 10 and base temperature 45 °C, for every
fidelity in range, every simulation time and every noise draw within the
per-fidelity noise bound, every cell of `generate_temperature_field` lies in
`[35, 55]` °C. -/
theorem c9_field_bounds (fid : ℕ) (noise : ℕ → ℕ → ℝ) (t : ℝ)
    (hfid : fid < 3) (hnoise : ∀ i j, |noise i j| ≤ noiseTable.getD fid 0) :
    ∀ row ∈ generate_temperature_field 10 45 fid noise t, ∀ x ∈ row,
      (35 : ℝ) ≤ x ∧ x ≤ 55 := by
  intro row hrow x hx
  obtain ⟨i, j, hi, hj, rfl⟩ := mem_generate hrow hx
  have h := @tempCell_bounds 45 fid noise t i j hfid (hnoise i j) hi hj
  exact ⟨by linarith [h.1], by linarith [h.2]⟩

/-- C9 witness: at fidelity 1, zero noise, time 0, the centre cell of the
default field lies in `[35, 55]`. -/
theorem c9_field_bounds_witness :
    (35 : ℝ) ≤ tempCell 10 45 1 (fun _ _ => 0) 0 5 5 ∧
      tempCell 10 45 1 (fun _ _ => 0) 0 5 5 ≤ 55 :=
  c9_field_bounds 1 (fun _ _ => 0) 0 (by norm_num)
    (fun i j => by norm_num [noiseTable])
    _ (generate_row_mem 45 1 (fun _ _ => 0) 0 (show 5 < 10 by norm_num))
    _ (generate_cell_mem 45 1 (fun _ _ => 0) 0 5 (show 5 < 10 by norm_num))

/-- C4 counterexample: for the concrete field `[[0, 0.32]]` (standard
deviation exactly 0.16) at High fidelity, the code returns
`round(1e-5 * 1.0016, 8) = 1.002e-5`, which differs from the claimed exact
product `1e-5 * (1 + std/100) = 1.0016e-5`: the 8-decimal rounding makes the
exact-equality claim false. -/
theorem c4_counterexample :
    calculate_energy_residuals 2 [[0, 8 / 25]] ≠
      baseResidualTable.getD 2 0 * (1 + std_temp ([[(0 : ℝ), 8 / 25]]).flatten / 100) := by
  have hfl : ([[(0 : ℝ), 8 / 25]]).flatten = [0, 8 / 25] := by simp
  have hstd : std_temp [(0 : ℝ), 8 / 25] = 4 / 25 := by
    unfold std_temp avg_temp
    norm_num [List.sum_cons, List.sum_nil]
    rw [show (16 : ℝ) = 4 ^ 2 by norm_num, show (625 : ℝ) = 25 ^ 2 by norm_num,
      Real.sqrt_sq (by norm_num : (0 : ℝ) ≤ 4), Real.sqrt_sq (by norm_num : (0 : ℝ) ≤ 25)]
  have hlhs : calculate_energy_residuals 2 [[0, 8 / 25]] = 1002 / 10 ^ 8 := by
    show pyRound 8 (baseResidualTable.getD 2 0 *
      (1 + std_temp ([[(0 : ℝ), 8 / 25]]).flatten / 100)) = _
    rw [hfl, hstd]
    norm_num [baseResidualTable]
    norm_num [pyRound, pyRoundInt]
  rw [hlhs, hfl, hstd]
  norm_num [baseResidualTable]

/-- C4 (amended): for every nonempty temperature field, the reported residual
strictly decreases as fidelity increases
(High `1e-5` < Medium `1e-3` < Low `1e-2` scale), and for each fidelity the
residual equals `base_residual * (1 + std_dev/100)` rounded to 8 decimal
places (the rounding is the amendment to the exact-equality claim). -/
theorem c4_residual (F : List (List ℝ)) (hne : F.flatten ≠ []) :
    calculate_energy_residuals 2 F < calculate_energy_residuals 1 F ∧
    calculate_energy_residuals 1 F < calculate_energy_residuals 0 F ∧
    (∀ fid, calculate_energy_residuals fid F =
      pyRound 8 (baseResidualTable.getD fid 0 * (1 + std_temp F.flatten / 100))) := by
  have hσ : 0 ≤ std_temp F.flatten := Real.sqrt_nonneg _
  have e0 : calculate_energy_residuals 0 F =
      pyRound 8 ((1e-2 : ℝ) * (1 + std_temp F.flatten / 100)) := by
    show pyRound 8 (baseResidualTable.getD 0 0 * (1 + std_temp F.flatten / 100)) = _
    norm_num [baseResidualTable]
  have e1 : calculate_energy_residuals 1 F =
      pyRound 8 ((1e-3 : ℝ) * (1 + std_temp F.flatten / 100)) := by
    show pyRound 8 (baseResidualTable.getD 1 0 * (1 + std_temp F.flatten / 100)) = _
    norm_num [baseResidualTable]
  have e2 : calculate_energy_residuals 2 F =
      pyRound 8 ((1e-5 : ℝ) * (1 + std_temp F.flatten / 100)) := by
    show pyRound 8 (baseResidualTable.getD 2 0 * (1 + std_temp F.flatten / 100)) = _
    norm_num [baseResidualTable]
  have h0 := abs_pyRound_sub_le (α := ℝ) 8 ((1e-2 : ℝ) * (1 + std_temp F.flatten / 100))
  have h1 := abs_pyRound_sub_le (α := ℝ) 8 ((1e-3 : ℝ) * (1 + std_temp F.flatten / 100))
  have h2 := abs_pyRound_sub_le (α := ℝ) 8 ((1e-5 : ℝ) * (1 + std_temp F.flatten / 100))
  rw [abs_le] at h0 h1 h2
  have hε : (1 : ℝ) / (2 * 10 ^ 8) = 1 / 200000000 := by norm_num
  rw [hε] at h0 h1 h2
  refine ⟨?_, ?_, fun fid => rfl⟩
  · rw [e1, e2]
    nlinarith [h1.1, h1.2, h2.1, h2.2, hσ]
  · rw [e0, e1]
    nlinarith [h0.1, h0.2, h1.1, h1.2, hσ]

/-- C4 witness: strict fidelity ordering of the residual on the concrete
field `[[45]]`. -/
theorem c4_residual_witness :
    calculate_energy_residuals 2 [[(45 : ℝ)]] < calculate_energy_residuals 1 [[(45 : ℝ)]] ∧
      calculate_energy_residuals 1 [[(45 : ℝ)]] < calculate_energy_residuals 0 [[(45 : ℝ)]] :=
  ⟨(c4_residual [[(45 : ℝ)]] (by simp)).1, (c4_residual [[(45 : ℝ)]] (by simp)).2.1⟩

theorem specThermalSolve_mem_bounds {T0 : List (List ℝ)} {solar wind ambient : ℝ}
    {fid : ℕ} {row : List ℝ}
    (hrow : row ∈ specThermalSolve T0 solar wind ambient fid) {x : ℝ}
    (hx : x ∈ row) : (250 : ℝ) ≤ x ∧ x ≤ 400 := by
  unfold specThermalSolve at hrow
  rcases List.mem_map.mp hrow with ⟨r0, hr0, rfl⟩
  rcases List.mem_map.mp hx with ⟨y, hy, rfl⟩
  unfold specClamp
  exact ⟨le_max_left _ _, max_le (by norm_num) (min_le_left _ _)⟩

/-- C5 counterexample: the field produced by `generate_temperature_field`
(fidelity Medium, zero noise, time 0) cannot be the output of the spec's
ThermalSolver for any initial grid and any solar/wind/ambient parameters:
the spec solver clamps every cell into [250, 400] K after its Euler
sub-steps, while the code's field contains the cell value 49 °C.  The code
performs no Euler sub-stepping at all. -/
theorem c5_counterexample :
    ¬ ∃ (T0 : List (List ℝ)) (solar wind ambient : ℝ),
        specThermalSolve T0 solar wind ambient 1 =
          generate_temperature_field 10 45 1 (fun _ _ => 0) 0 := by
  rintro ⟨T0, solar, wind, ambient, heq⟩
  have hval : tempCell 10 45 1 (fun _ _ => 0) 0 5 5 = 49 := by
    rw [tempCell_center]
    have hf0 : fmod (0 : ℝ) 20 = 0 := by norm_num [fmod]
    rw [hf0]
    rw [show |(0.5 : ℝ) - 0 / 20| = 0.5 by norm_num]
    norm_num [hotspotTable]
    norm_num [pyRound, pyRoundInt]
  have hrow := generate_row_mem 45 1 (fun _ _ => 0) (0 : ℝ) (show 5 < 10 by norm_num)
  have hcell := generate_cell_mem 45 1 (fun _ _ => 0) (0 : ℝ) 5 (show 5 < 10 by norm_num)
  rw [← heq] at hrow
  have hb := specThermalSolve_mem_bounds hrow hcell
  rw [hval] at hb
  norm_num at hb

/-- C5 (amended): `generate_temperature_field` performs no Euler sub-steps;
it synthesizes each cell analytically.  Cell `(i, j)` of the default 10×10,
45 °C field equals
`round(45 + hotspot * (1 - dist/5) + noise + 2*|0.5 - (t mod 20)/20|, 2)`
with `hotspot = [5, 3, 1][fidelity]` and `dist` the Euclidean distance to the
grid centre `(5, 5)`. -/
theorem c5_analytic_cells (fid : ℕ) (noise : ℕ → ℕ → ℝ) (t : ℝ) (i j : ℕ)
    (hi : i < 10) (hj : j < 10) :
    ((generate_temperature_field 10 45 fid noise t).getD i []).getD j 0 =
      pyRound 2 (45 + hotspotTable.getD fid 0 *
          (1 - Real.sqrt (((i : ℝ) - 5) ^ 2 + ((j : ℝ) - 5) ^ 2) / 5) +
        noise i j + 2.0 * |0.5 - fmod t 20 / 20|) := by
  have hrowD : (generate_temperature_field 10 45 fid noise t).getD i [] =
      (List.range 10).map fun j => tempCell 10 45 fid noise t i j := by
    unfold generate_temperature_field
    rw [List.getD_eq_getElem?_getD, List.getElem?_map,
      List.getElem?_eq_getElem (by simpa using hi)]
    simp
  rw [hrowD, List.getD_eq_getElem?_getD, List.getElem?_map,
    List.getElem?_eq_getElem (by simpa using hj)]
  simp only [List.getElem_range]
  simp only [tempCell]
  rw [show ((10 : ℕ) : ℝ) / 2 = 5 by norm_num]
  simp

/-- C5 amended witness: the closed form evaluated at the centre cell,
fidelity 1, zero noise, time 0. -/
theorem c5_analytic_cells_witness :
    ((generate_temperature_field 10 45 1 (fun _ _ => 0) 0).getD 5 []).getD 5 0 =
      pyRound 2 (45 + hotspotTable.getD 1 0 *
          (1 - Real.sqrt (((5 : ℕ) - 5 : ℝ) ^ 2 + ((5 : ℕ) - 5 : ℝ) ^ 2) / 5) +
        (fun _ _ => (0 : ℝ)) 5 5 + 2.0 * |0.5 - fmod (0 : ℝ) 20 / 20|) :=
  c5_analytic_cells 1 (fun _ _ => 0) 0 5 5 (by norm_num) (by norm_num)

/-- C6 witness: after the first update from a fresh state the history bound
holds. -/
theorem c6_history_bound_witness :
    ((initSimulationState 0).update 1).1.fidelity_history.length ≤ 100 :=
  (c6_history_bound (initSimulationState 0) 1).1
